import Mathlib

/-!
Verification of the admission-control and request-scheduling core of
`troyhacks/ESPAsyncWebServer` (`src/WebServer.cpp`), as a shallow embedding.

The embedding models:
* the platform heap floors `ASYNCWEBSERVER_MINIMUM_HEAP` / `ASYNCWEBSERVER_MINIMUM_ALLOC`
  (the non-ESP8266 defaults, 8192 / 2048 bytes);
* the connection admission gate (the `onClient` lambda installed by the
  `AsyncWebServer` constructor), including the 503-rejection callbacks and
  `minimal_send_503`;
* the request queue, its lifecycle states (`_parseState`: 100 = active,
  200 = queued, 201 = deferred) and the drain loop `processQueue`;
* the rewrite chain `_rewriteRequest` and handler dispatch `_attachHandler`;
* the counters `numClients` and `queueLength`.

Machine integers are modelled as `Nat`: every quantity involved (heap sizes,
queue lengths, parse states) is a small non-negative count in the source and
no arithmetic in the modelled code can overflow or go below zero.
-/

namespace ESPAsyncWebServer

/-- Platform floor for the largest free block (`#define ASYNCWEBSERVER_MINIMUM_ALLOC`,
default 2048 on non-ESP8266 targets, 1024 on ESP8266; we fix the non-ESP8266 default). -/
def ASYNCWEBSERVER_MINIMUM_ALLOC : Nat := 2048

/-- Platform floor for free heap bytes (`#define ASYNCWEBSERVER_MINIMUM_HEAP`,
default 8192 on non-ESP8266 targets, 2048 on ESP8266; we fix the non-ESP8266 default). -/
def ASYNCWEBSERVER_MINIMUM_HEAP : Nat := 8192

/-- Structure `AsyncWebServerQueueLimits`: the four configurable thresholds, each 0 meaning
"unconstrained".  Field names follow the source's uses in `WebServer.cpp`
(`_queueLimits.nMax`, `.queueHeapRequired`, `.nParallel`, `.requestHeapRequired`). -/
structure AsyncWebServerQueueLimits where
  nMax : Nat
  queueHeapRequired : Nat
  nParallel : Nat
  requestHeapRequired : Nat
deriving DecidableEq

/-- The part of an `AsyncWebServerRequest` that the admission/queue core inspects:
an identity and the `_parseState` lifecycle field (100 = active, 200 = queued,
201 = deferred; other values belong to the parser layer). -/
structure QReq where
  rid : Nat
  parseState : Nat
deriving DecidableEq

/-- The `_requestQueue` linked list, oldest admitted first. -/
abbrev RequestQueue := List QReq

/-- Number of queue entries with `_parseState == 100` (the `active_entries`
count taken under the lock in `processQueue`). -/
def countActive (q : RequestQueue) : Nat := q.countP (fun r => r.parseState == 100)

/-- Number of queue entries with `_parseState == 200`. -/
def countQueued (q : RequestQueue) : Nat := q.countP (fun r => r.parseState == 200)

/-- Whether some entry has `_parseState == 200` (a `next_queued_request` exists). -/
def hasQueued (q : RequestQueue) : Bool := q.any (fun r => r.parseState == 200)

/-- Effect of `next_queued_request->_handleRequest()` on the queue, where
`next_queued_request` is the first entry in state 200.

Modelled from the spec: `AsyncWebServerRequest::_handleRequest` is not part of
`src/`; per the spec's lifecycle ("queued → active (by Drain Loop)"), activation
moves the chosen request from the *queued* state (200) to the *active* state (100). -/
def activateFirst : RequestQueue → RequestQueue
  | [] => []
  | r :: rs => if r.parseState == 200 then ⟨r.rid, 100⟩ :: rs else r :: activateFirst rs

/-- Definition of `heap_ok` in `processQueue`: `get_heap_available() > _queueLimits.requestHeapRequired`. -/
def heap_ok (limits : AsyncWebServerQueueLimits) (avail : Nat) : Bool :=
  limits.requestHeapRequired < avail

/-- Definition of `alloc_ok` in `processQueue`: `get_heap_alloc() > ASYNCWEBSERVER_MINIMUM_ALLOC`.
Note the comparison is against the compile-time platform constant, not a field of
the configured queue limits. -/
def alloc_ok (alloc : Nat) : Bool :=
  ASYNCWEBSERVER_MINIMUM_ALLOC < alloc

/-- Fuel-indexed body of the `do { ... } while(1)` loop of
`AsyncWebServer::processQueue`.  The heap oracle `heap` gives the pair
`(get_heap_available(), get_heap_alloc())` returned by the fresh queries of
iteration `i`.  Each iteration:
* recomputes `heap_ok` / `alloc_ok` from the fresh readings,
* counts `active_entries` and finds the first queued entry under the lock,
* breaks if there is no queued entry,
* breaks if `nParallel` is nonzero and `active_entries` has reached it,
* breaks if some entry is active and heap or alloc is insufficient,
* otherwise activates the first queued entry and repeats.
The fuel only bounds the recursion; `processQueueLoop` below supplies enough
fuel for the loop to run to its natural break, and `processQueueLoop_eq`
recovers the exact source recurrence. -/
def processQueueGo (limits : AsyncWebServerQueueLimits) (heap : Nat → Nat × Nat) :
    Nat → Nat → RequestQueue → RequestQueue
  | 0, _, q => q
  | fuel + 1, i, q =>
    if hasQueued q = true then
      if 0 < limits.nParallel ∧ limits.nParallel ≤ countActive q then q
      else if 0 < countActive q ∧ (heap_ok limits (heap i).1 = false ∨ alloc_ok (heap i).2 = false) then q
      else processQueueGo limits heap fuel (i + 1) (activateFirst q)
    else q

/-- The `do ... while(1)` loop of `AsyncWebServer::processQueue`, starting at
iteration `i` on queue `q`.  `countQueued q` units of fuel always suffice:
every non-breaking iteration turns one queued entry active. -/
def processQueueLoop (limits : AsyncWebServerQueueLimits) (heap : Nat → Nat × Nat)
    (i : Nat) (q : RequestQueue) : RequestQueue :=
  processQueueGo limits heap (countQueued q) i q

/-- The server state that `processQueue` manipulates: the request queue and the
single-flight flag `_queueActive`. -/
structure ServerState where
  queue : RequestQueue
  queueActive : Bool
deriving DecidableEq

/-- The un-defer sweep at the exit of `processQueue`: every entry with
`_parseState == 201` is set back to 200. -/
def undefer (q : RequestQueue) : RequestQueue :=
  q.map (fun r => if r.parseState == 201 then ⟨r.rid, 200⟩ else r)

/-- Embedding of `AsyncWebServer::processQueue`: under the lock, return immediately if
`_queueActive` is already set; otherwise set it, run the drain loop, then under
the lock revert deferred entries (201 → 200) and clear the flag. -/
def processQueue (limits : AsyncWebServerQueueLimits) (heap : Nat → Nat × Nat)
    (st : ServerState) : ServerState :=
  if st.queueActive then st
  else { queue := undefer (processQueueLoop limits heap 0 st.queue), queueActive := false }

/- ### Basic lemmas about the queue counters and the loop -/

theorem hasQueued_iff_countQueued_pos (q : RequestQueue) :
    hasQueued q = true ↔ 0 < countQueued q := by
  simp [hasQueued, countQueued, List.any_eq_true, List.countP_pos_iff]

theorem countQueued_activateFirst (q : RequestQueue) (h : hasQueued q = true) :
    countQueued (activateFirst q) + 1 = countQueued q := by
  induction q with
  | nil => simp [hasQueued] at h
  | cons r rs ih =>
    by_cases hr : r.parseState == 200
    · simp [activateFirst, hr, countQueued, List.countP_cons]
    · have h' : hasQueued rs = true := by
        simpa [hasQueued, List.any_cons, hr] using h
      have ih' := ih h'
      simp only [countQueued] at ih' ⊢
      simp [activateFirst, hr, List.countP_cons, ih']

theorem countActive_activateFirst (q : RequestQueue) (h : hasQueued q = true) :
    countActive (activateFirst q) = countActive q + 1 := by
  induction q with
  | nil => simp [hasQueued] at h
  | cons r rs ih =>
    by_cases hr : r.parseState == 200
    · have hr' : r.parseState = 200 := by simpa using hr
      simp [activateFirst, hr, countActive, List.countP_cons, hr']
    · have h' : hasQueued rs = true := by
        simpa [hasQueued, List.any_cons, hr] using h
      have ih' := ih h'
      simp only [countActive] at ih' ⊢
      simp [activateFirst, hr, List.countP_cons, ih']
      omega

theorem countQueued_go_le (limits : AsyncWebServerQueueLimits) (heap : Nat → Nat × Nat) :
    ∀ (fuel i : Nat) (q : RequestQueue),
      countQueued (processQueueGo limits heap fuel i q) ≤ countQueued q := by
  intro fuel
  induction fuel with
  | zero => intro i q; simp [processQueueGo]
  | succ n ih =>
    intro i q
    simp only [processQueueGo]
    by_cases hq : hasQueued q = true
    · simp only [hq, if_true]
      split
      · exact Nat.le_refl _
      · split
        · exact Nat.le_refl _
        · calc countQueued (processQueueGo limits heap n (i + 1) (activateFirst q))
                ≤ countQueued (activateFirst q) := ih _ _
            _ ≤ countQueued q := by
                have := countQueued_activateFirst q hq
                omega
    · simp [hq]

theorem processQueueGo_fuel_irrel (limits : AsyncWebServerQueueLimits)
    (heap : Nat → Nat × Nat) :
    ∀ (a b i : Nat) (q : RequestQueue),
      countQueued q ≤ a → countQueued q ≤ b →
      processQueueGo limits heap a i q = processQueueGo limits heap b i q := by
  intro a
  induction a with
  | zero =>
    intro b i q ha _
    have h0 : countQueued q = 0 := Nat.le_zero.mp ha
    have hq : hasQueued q = false := by
      cases hhq : hasQueued q with
      | false => rfl
      | true =>
        have := (hasQueued_iff_countQueued_pos q).mp hhq
        omega
    cases b with
    | zero => rfl
    | succ m => simp [processQueueGo, hq]
  | succ n ih =>
    intro b i q ha hb
    cases b with
    | zero =>
      have h0 : countQueued q = 0 := Nat.le_zero.mp hb
      have hq : hasQueued q = false := by
        cases hhq : hasQueued q with
        | false => rfl
        | true =>
          have := (hasQueued_iff_countQueued_pos q).mp hhq
          omega
      simp [processQueueGo, hq]
    | succ m =>
      simp only [processQueueGo]
      by_cases hq : hasQueued q = true
      · simp only [hq, if_true]
        split
        · rfl
        · split
          · rfl
          · have hlt := countQueued_activateFirst q hq
            exact ih m (i + 1) (activateFirst q) (by omega) (by omega)
      · simp [hq]

/-- The exact recurrence satisfied by the `do ... while(1)` loop of
`AsyncWebServer::processQueue`: break when no queued entry exists, break on
the concurrency limit, break on insufficient heap while work is active,
otherwise activate the oldest queued entry and loop with fresh heap readings. -/
theorem processQueueLoop_eq (limits : AsyncWebServerQueueLimits)
    (heap : Nat → Nat × Nat) (i : Nat) (q : RequestQueue) :
    processQueueLoop limits heap i q =
      if hasQueued q = true then
        if 0 < limits.nParallel ∧ limits.nParallel ≤ countActive q then q
        else if 0 < countActive q ∧
            (heap_ok limits (heap i).1 = false ∨ alloc_ok (heap i).2 = false) then q
        else processQueueLoop limits heap (i + 1) (activateFirst q)
      else q := by
  unfold processQueueLoop
  by_cases hq : hasQueued q = true
  · have hpos := (hasQueued_iff_countQueued_pos q).mp hq
    obtain ⟨n, hn⟩ : ∃ n, countQueued q = n + 1 := ⟨countQueued q - 1, by omega⟩
    rw [hn]
    simp only [processQueueGo, hq, if_true]
    split
    · rfl
    · split
      · rfl
      · have hlt := countQueued_activateFirst q hq
        exact processQueueGo_fuel_irrel limits heap n (countQueued (activateFirst q))
          (i + 1) (activateFirst q) (by omega) (Nat.le_refl _)
  · obtain ⟨n, hn⟩ : ∃ n, countQueued q = n := ⟨_, rfl⟩
    cases hcq : countQueued q with
    | zero => simp [processQueueGo, hq]
    | succ m =>
      have : hasQueued q = true := (hasQueued_iff_countQueued_pos q).mpr (by omega)
      exact absurd this hq

/- ### Admission gate (the `onClient` lambda of the `AsyncWebServer` constructor) -/

/-- Outcome of the `onClient` lambda for one newly accepted `AsyncClient`:
* `dropped` — the platform heap floor failed: `c->close(true); delete c;`,
  nothing written, no request allocated;
* `rejected` — a configured queue limit was exceeded: no request allocated,
  `setNoDelay(true)` and the 503 callbacks installed (see `rejectStep`);
* `allocFailed` — `new AsyncWebServerRequest` returned NULL: transport closed,
  nothing enqueued;
* `accepted rxTimeout` — `setRxTimeout(rxTimeout)` applied, request enqueued. -/
inductive ConnAction where
  | dropped
  | rejected
  | allocFailed
  | accepted (rxTimeout : Nat)
deriving DecidableEq

/-- The `onClient` lambda installed by the `AsyncWebServer` constructor.
`heapAvail`/`heapAlloc` are `get_heap_available()`/`get_heap_alloc()` at entry;
`allocSucceeds` is whether `new AsyncWebServerRequest` succeeds; the result pairs
the action taken with the resulting `_requestQueue`.

Modelled from the spec (the `AsyncWebServerRequest` constructor is not in
`src/`): a freshly admitted request enters the *queued* lifecycle state (200). -/
def onClient (limits : AsyncWebServerQueueLimits) (heapAvail heapAlloc : Nat)
    (allocSucceeds : Bool) (q : RequestQueue) (newId : Nat) : ConnAction × RequestQueue :=
  if heapAvail < ASYNCWEBSERVER_MINIMUM_HEAP ∨ heapAlloc < ASYNCWEBSERVER_MINIMUM_ALLOC then
    (.dropped, q)
  else if (0 < limits.nMax ∧ limits.nMax ≤ q.length)
      ∨ (0 < limits.queueHeapRequired ∧ heapAvail < limits.queueHeapRequired) then
    (.rejected, q)
  else if allocSucceeds = false then
    (.allocFailed, q)
  else
    (.accepted 3, q ++ [⟨newId, 200⟩])

/-- The fixed 503 payload of `minimal_send_503` (the PROGMEM string `msg`,
written with length `sizeof(MSG_503)-1`, i.e. without its NUL terminator). -/
def MSG_503 : String := "HTTP/1.1 503 Service Unavailable\r\nConnection: close\r\n"

/-- Embedding of `minimal_send_503`: attempt `c->write(MSG_503, ...)`; `w` is the number of
bytes the transport accepted.  Returns the payload that was accepted (if any)
and whether the function forcibly closed the client (`w == 0` means close). -/
def minimal_send_503 (w : Nat) : Option String × Bool :=
  if w == 0 then (none, true) else (some MSG_503, false)

/-- Observable state of a connection on the 503-rejection path: the payloads
accepted by the transport so far, whether the connection has been closed (or
deleted on disconnect), and whether the `onData` callback is still installed
(the callback uninstalls itself with `rc->onData({})` before sending). -/
structure RejectClient where
  written : List String
  closed : Bool
  dataActive : Bool
deriving DecidableEq

/-- A rejected connection right after `onClient` installs the callbacks. -/
def initialRejectClient : RejectClient := ⟨[], false, true⟩

/-- Transport events a rejected connection can observe: data arriving from the
client (with the transport's write result for the 503 attempt), an ack of `s`
bytes, or a disconnect. -/
inductive ClientEvent where
  | dataArrived (writeResult : Nat)
  | acked (s : Nat)
  | disconnected

/-- The three callbacks installed on the rejection path of `onClient`:
* `onData`: uninstall itself, then `minimal_send_503` (write the fixed payload;
  close if zero bytes were accepted);
* `onAck`: `if (s) rc->close(true);`
* `onDisconnect`: `delete rc` (the connection object is gone — modelled as closed). -/
def rejectStep (c : RejectClient) : ClientEvent → RejectClient
  | .dataArrived w =>
    if c.dataActive then
      let r := minimal_send_503 w
      { written := c.written ++ (match r.1 with | some m => [m] | none => []),
        closed := c.closed || r.2,
        dataActive := false }
    else c
  | .acked s => if s == 0 then c else { c with closed := true }
  | .disconnected => { c with closed := true }

/-- A rejected connection observing a sequence of transport events. -/
def rejectRun (c : RejectClient) (evs : List ClientEvent) : RejectClient :=
  evs.foldl rejectStep c

/- ### Rewrite chain and handler dispatch -/

/-- The part of an `AsyncWebServerRequest` that the rewrite chain and handler
dispatch manipulate: `_url`, the accumulated GET parameters, and the
interesting-header interests registered so far. -/
structure WebRequest where
  url : String
  params : List (String × String)
  interestingHeaders : List String
deriving DecidableEq

/-- An `AsyncWebRewrite` as the rewrite loop sees it: `match(request)`,
`toUrl()` and `params()`.  (`match` is a Lean keyword, hence `rmatch`.) -/
structure AsyncWebRewrite where
  rmatch : WebRequest → Bool
  toUrl : String
  params : List (String × String)

/-- Embedding of `AsyncWebServer::_rewriteRequest`: for each configured rewrite in
registration order, if `r->match(request)` then `request->_url = r->toUrl()`
and `request->_addGetParams(r->params())`.

Modelled from the spec: `_addGetParams` is not in `src/`; per the spec it
"merges" the rule's parameters into the request, modelled as appending them. -/
def _rewriteRequest (rewrites : List AsyncWebRewrite) (req : WebRequest) : WebRequest :=
  rewrites.foldl
    (fun r rw =>
      if rw.rmatch r then
        { r with url := rw.toUrl, params := r.params ++ rw.params }
      else r)
    req

/-- Modelled from the spec: the plain `AsyncWebRewrite(from, to)` rule built by
`AsyncWebServer::rewrite` lives in a header outside `src/`; per the spec a rule
is an "immutable match pattern + replacement target", matching when the
request's current path equals its from-pattern and rewriting the path to `to`. -/
def rewriteFromTo (f t : String) : AsyncWebRewrite :=
  { rmatch := fun r => r.url == f, toUrl := t, params := [] }

/-- An `AsyncWebHandler` as dispatch sees it: `filter(request)` and
`canHandle(request)`. -/
structure AsyncWebHandler where
  filter : WebRequest → Bool
  canHandle : WebRequest → Bool

/-- Which handler `_attachHandler` bound: the handler at a given registration
index, or the catch-all. -/
inductive HandlerChoice where
  | handler (idx : Nat)
  | catchAll
deriving DecidableEq

/-- The loop of `AsyncWebServer::_attachHandler`, carrying the registration
index of the head handler.

Modelled from the spec: `addInterestingHeader` is not in `src/`; per the spec
the no-match branch "marks the request as having matched an unconstrained
(\"any\") interest set", modelled as appending "ANY" to the request's
interesting-header list. -/
def attachHandlerFrom : List AsyncWebHandler → Nat → WebRequest → HandlerChoice × WebRequest
  | [], _, req => (.catchAll, { req with interestingHeaders := req.interestingHeaders ++ ["ANY"] })
  | h :: hs, idx, req =>
    if h.filter req && h.canHandle req then (.handler idx, req)
    else attachHandlerFrom hs (idx + 1) req

/-- Embedding of `AsyncWebServer::_attachHandler`: scan handlers in registration order for
the first with `filter(request) && canHandle(request)`; bind it and stop, else
mark the "ANY" interest and bind the catch-all handler. -/
def _attachHandler (handlers : List AsyncWebHandler) (req : WebRequest) :
    HandlerChoice × WebRequest :=
  attachHandlerFrom handlers 0 req

/-- Follows the spec's words (for comparison with `_attachHandler`): bind the
first handler, in registration order, whose `filter` and `canHandle` both
succeed; if none matches, mark the "ANY" interest and bind the catch-all. -/
def dispatchSpec (handlers : List AsyncWebHandler) (req : WebRequest) :
    HandlerChoice × WebRequest :=
  match handlers.findIdx? (fun h => h.filter req && h.canHandle req) with
  | some i => (.handler i, req)
  | none => (.catchAll, { req with interestingHeaders := req.interestingHeaders ++ ["ANY"] })

/- ### Counters -/

/-- Embedding of `AsyncWebServer::numClients`: the length of `_requestQueue`. -/
def numClients (q : RequestQueue) : Nat := q.length

/-- Embedding of `AsyncWebServer::queueLength`: the number of queue entries with
`_parseState >= 200`. -/
def queueLength (q : RequestQueue) : Nat := q.countP (fun r => 200 ≤ r.parseState)

/- ### Whole-server traces: admissions, completions, drain triggers -/

/-- Events driving the server core, as seen from `WebServer.cpp`:
* `connect` — a new transport connection handled by the `onClient` lambda
  (with the heap readings and allocation outcome observed there);
* `finish` — `_dequeue(request)`: remove the request from the queue, then
  `processQueue` (with its per-iteration heap readings);
* `drain` — a bare `processQueue` trigger;
* `reparse` — the parser/handler layer moving a request to another lifecycle
  state.  Modelled from the spec: transitions *into* the active state are
  performed only by the drain loop ("queued → active (by Drain Loop)"), so an
  external transition to state 100 does not occur and is modelled as a no-op. -/
inductive ServerEvent where
  | connect (heapAvail heapAlloc : Nat) (allocSucceeds : Bool) (newId : Nat)
  | finish (rid : Nat) (heap : Nat → Nat × Nat)
  | drain (heap : Nat → Nat × Nat)
  | reparse (rid : Nat) (s : Nat)

/-- One step of the server core. -/
def stepServer (limits : AsyncWebServerQueueLimits) (st : ServerState) :
    ServerEvent → ServerState
  | .connect a b ok newId => { st with queue := (onClient limits a b ok st.queue newId).2 }
  | .finish rid heap =>
      processQueue limits heap { st with queue := st.queue.filter (fun r => r.rid != rid) }
  | .drain heap => processQueue limits heap st
  | .reparse rid s =>
      if s == 100 then st
      else { st with queue := st.queue.map (fun r => if r.rid == rid then ⟨r.rid, s⟩ else r) }

/-- The server core observing a sequence of events. -/
def runServer (limits : AsyncWebServerQueueLimits) (st : ServerState)
    (evs : List ServerEvent) : ServerState :=
  evs.foldl (stepServer limits) st

/- ### Preservation lemmas for the active-count bound -/

theorem countActive_undefer (q : RequestQueue) : countActive (undefer q) = countActive q := by
  induction q with
  | nil => rfl
  | cons r rs ih =>
    simp only [undefer, List.map_cons, countActive, List.countP_cons] at ih ⊢
    by_cases hr : r.parseState == 201
    · have hr' : r.parseState = 201 := by simpa using hr
      have h1 : ((if (r.parseState == 201) = true then (⟨r.rid, 200⟩ : QReq) else r).parseState
          == 100) = false := by simp [hr]
      have h2 : (r.parseState == 100) = false := by simp [hr']
      rw [h1, h2]
      simpa using ih
    · have h1 : (if (r.parseState == 201) = true then (⟨r.rid, 200⟩ : QReq) else r) = r := by
        simp [hr]
      rw [h1, ih]

theorem countActive_onClient (limits : AsyncWebServerQueueLimits)
    (a b : Nat) (ok : Bool) (q : RequestQueue) (newId : Nat) :
    countActive (onClient limits a b ok q newId).2 = countActive q := by
  unfold onClient
  split
  · rfl
  · split
    · rfl
    · split
      · rfl
      · simp [countActive, List.countP_append]

theorem countActive_filter (p : QReq → Bool) (q : RequestQueue) :
    countActive (q.filter p) ≤ countActive q := by
  induction q with
  | nil => simp [countActive]
  | cons r rs ih =>
    by_cases hp : p r
    · simp only [List.filter_cons, hp, if_true, countActive, List.countP_cons] at *
      omega
    · simp only [List.filter_cons, hp, Bool.false_eq_true, if_false, countActive,
        List.countP_cons] at *
      omega

theorem countActive_reparse (rid s : Nat) (hs : ¬ s = 100) (q : RequestQueue) :
    countActive (q.map (fun r => if r.rid == rid then ⟨r.rid, s⟩ else r)) ≤ countActive q := by
  induction q with
  | nil => simp [countActive]
  | cons r rs ih =>
    simp only [List.map_cons, countActive, List.countP_cons] at ih ⊢
    by_cases hr : r.rid == rid
    · have h100 : ((s == 100) = false) := by simpa using hs
      simp only [hr, if_true,
        show ((⟨r.rid, s⟩ : QReq).parseState == 100) = false from h100,
        Bool.false_eq_true, if_false]
      omega
    · simp only [hr, Bool.false_eq_true, if_false]
      omega

theorem countActive_go_le (limits : AsyncWebServerQueueLimits) (heap : Nat → Nat × Nat)
    (hpar : 0 < limits.nParallel) :
    ∀ (fuel i : Nat) (q : RequestQueue), countActive q ≤ limits.nParallel →
      countActive (processQueueGo limits heap fuel i q) ≤ limits.nParallel := by
  intro fuel
  induction fuel with
  | zero => intro i q h; simpa [processQueueGo] using h
  | succ n ih =>
    intro i q h
    simp only [processQueueGo]
    by_cases hq : hasQueued q = true
    · simp only [hq, if_true]
      split
      · exact h
      · rename_i hguard
        split
        · exact h
        · have hlt : countActive q < limits.nParallel := by
            rcases Nat.lt_or_ge (countActive q) limits.nParallel with hc | hc
            · exact hc
            · exact absurd ⟨hpar, hc⟩ hguard
          apply ih
          rw [countActive_activateFirst q hq]
          omega
    · simp [hq, h]

theorem countActive_processQueue_le (limits : AsyncWebServerQueueLimits)
    (heap : Nat → Nat × Nat) (hpar : 0 < limits.nParallel) (st : ServerState)
    (h : countActive st.queue ≤ limits.nParallel) :
    countActive (processQueue limits heap st).queue ≤ limits.nParallel := by
  unfold processQueue
  split
  · exact h
  · simp only
    rw [countActive_undefer]
    exact countActive_go_le limits heap hpar _ 0 _ h

theorem countActive_step_le (limits : AsyncWebServerQueueLimits)
    (hpar : 0 < limits.nParallel) (st : ServerState) (ev : ServerEvent)
    (h : countActive st.queue ≤ limits.nParallel) :
    countActive (stepServer limits st ev).queue ≤ limits.nParallel := by
  cases ev with
  | connect a b ok newId => simpa [stepServer, countActive_onClient] using h
  | finish rid heap =>
    apply countActive_processQueue_le limits heap hpar
    exact Nat.le_trans (countActive_filter _ _) h
  | drain heap => exact countActive_processQueue_le limits heap hpar st h
  | reparse rid s =>
    simp only [stepServer]
    split
    · exact h
    · rename_i hs
      have hs' : ¬ s = 100 := by simpa using hs
      exact Nat.le_trans (countActive_reparse rid s hs' st.queue) h

theorem countActive_run_le (limits : AsyncWebServerQueueLimits)
    (hpar : 0 < limits.nParallel) (evs : List ServerEvent) (st : ServerState)
    (h : countActive st.queue ≤ limits.nParallel) :
    countActive (runServer limits st evs).queue ≤ limits.nParallel := by
  induction evs generalizing st with
  | nil => simpa [runServer] using h
  | cons e es ih =>
    simp only [runServer, List.foldl_cons]
    exact ih _ (countActive_step_le limits hpar st e h)

/- ### Helper characterizations -/

theorem heap_ok_eq_false_iff (limits : AsyncWebServerQueueLimits) (a : Nat) :
    heap_ok limits a = false ↔ a ≤ limits.requestHeapRequired := by
  simp [heap_ok]

theorem alloc_ok_eq_false_iff (b : Nat) :
    alloc_ok b = false ↔ b ≤ ASYNCWEBSERVER_MINIMUM_ALLOC := by
  simp [alloc_ok]

theorem attachHandlerFrom_eq (req : WebRequest) :
    ∀ (hs : List AsyncWebHandler) (idx : Nat),
      attachHandlerFrom hs idx req =
        match hs.findIdx? (fun h => h.filter req && h.canHandle req) idx with
        | some j => (.handler j, req)
        | none => (.catchAll, { req with interestingHeaders := req.interestingHeaders ++ ["ANY"] }) := by
  intro hs
  induction hs with
  | nil => intro idx; rfl
  | cons h t ih =>
    intro idx
    by_cases hp : h.filter req && h.canHandle req
    · simp [attachHandlerFrom, hp, List.findIdx?_cons]
    · simp [attachHandlerFrom, hp, List.findIdx?_cons, ih (idx + 1)]

/- ### The claims -/

/-- Claim C5: for every newly accepted connection with free heap below the
platform minimum-heap floor or largest free block below the platform
minimum-alloc floor, the connection is dropped (closed, no response written,
no `AsyncWebServerRequest` allocated, queue unchanged) — and this happens for
every configured queue limit, i.e. before the configurable limits are
consulted. -/
theorem C5_platform_floor_drop (heapAvail heapAlloc : Nat) (ok : Bool)
    (q : RequestQueue) (newId : Nat)
    (h : heapAvail < ASYNCWEBSERVER_MINIMUM_HEAP ∨ heapAlloc < ASYNCWEBSERVER_MINIMUM_ALLOC) :
    ∀ limits : AsyncWebServerQueueLimits,
      onClient limits heapAvail heapAlloc ok q newId = (.dropped, q) := by
  intro limits
  unfold onClient
  rw [if_pos h]

/-- Witness for C5 at a concrete starved heap. -/
theorem C5_platform_floor_drop_witness :
    onClient ⟨5, 5, 5, 5⟩ 0 0 true [] 7 = (.dropped, []) :=
  C5_platform_floor_drop 0 0 true [] 7 (Or.inl (by decide)) ⟨5, 5, 5, 5⟩

/-- Counterexample to claim C1 as stated: a connection arriving while
`minFreeHeapToQueue` (`queueHeapRequired`) is nonzero and free heap is below it
(here 0 < 10000) does NOT receive the 503 response when the free heap is also
below the platform floor — the platform floor check runs first and the
connection is dropped with nothing written. -/
theorem C1_counterexample :
    0 < (10000 : Nat) ∧ (0 : Nat) < 10000 ∧
    (onClient ⟨0, 10000, 0, 0⟩ 0 100000 true [] 1).1 = ConnAction.dropped ∧
    ConnAction.dropped ≠ ConnAction.rejected := by decide

/-- Claim C1 (amended): for every new connection that passes the platform heap
floor, if `maxQueueDepth` (`nMax`) is nonzero and the queue already holds at
least that many requests, or `minFreeHeapToQueue` (`queueHeapRequired`) is
nonzero and free heap is below it, then no request object is allocated (the
queue is unchanged and the action is `rejected`), and on the installed
callbacks the client that sends data receives exactly the fixed pre-built 503
payload and the connection is closed once those bytes are acknowledged. -/
theorem C1_queue_limit_rejection (limits : AsyncWebServerQueueLimits)
    (a b : Nat) (ok : Bool) (q : RequestQueue) (newId : Nat) (w s : Nat)
    (hfloor : ASYNCWEBSERVER_MINIMUM_HEAP ≤ a ∧ ASYNCWEBSERVER_MINIMUM_ALLOC ≤ b)
    (hlim : (0 < limits.nMax ∧ limits.nMax ≤ q.length)
        ∨ (0 < limits.queueHeapRequired ∧ a < limits.queueHeapRequired))
    (hw : w ≠ 0) (hs : s ≠ 0) :
    onClient limits a b ok q newId = (.rejected, q) ∧
    (rejectRun initialRejectClient [.dataArrived w, .acked s]).written = [MSG_503] ∧
    (rejectRun initialRejectClient [.dataArrived w, .acked s]).closed = true := by
  have hw' : (w == 0) = false := by simpa using hw
  have hs' : (s == 0) = false := by simpa using hs
  have hnf : ¬(a < ASYNCWEBSERVER_MINIMUM_HEAP ∨ b < ASYNCWEBSERVER_MINIMUM_ALLOC) := by
    omega
  refine ⟨?_, ?_, ?_⟩
  · unfold onClient
    rw [if_neg hnf, if_pos hlim]
  · simp [rejectRun, rejectStep, minimal_send_503, initialRejectClient, hw', hs']
  · simp [rejectRun, rejectStep, minimal_send_503, initialRejectClient, hw', hs']

/-- Witness for the amended C1: a full queue of depth 1 with `nMax = 1`. -/
theorem C1_queue_limit_rejection_witness :
    onClient ⟨1, 0, 0, 0⟩ 8192 2048 true [⟨0, 100⟩] 5 = (.rejected, [⟨0, 100⟩]) ∧
    (rejectRun initialRejectClient [.dataArrived 53, .acked 53]).written = [MSG_503] ∧
    (rejectRun initialRejectClient [.dataArrived 53, .acked 53]).closed = true :=
  C1_queue_limit_rejection ⟨1, 0, 0, 0⟩ 8192 2048 true [⟨0, 100⟩] 5 53 53
    (by decide) (Or.inl (by decide)) (by decide) (by decide)

/-- Claim C9: a connection that passes both the platform floor and the
configured queue limits gets a short read-timeout (3) applied, a request
bound to server and transport allocated and appended at the tail of the queue
(FIFO admission); if allocation fails, the transport is closed and nothing is
enqueued. -/
theorem C9_accept_fifo (limits : AsyncWebServerQueueLimits) (a b : Nat)
    (q : RequestQueue) (newId : Nat)
    (hfloor : ¬(a < ASYNCWEBSERVER_MINIMUM_HEAP ∨ b < ASYNCWEBSERVER_MINIMUM_ALLOC))
    (hlim : ¬((0 < limits.nMax ∧ limits.nMax ≤ q.length)
        ∨ (0 < limits.queueHeapRequired ∧ a < limits.queueHeapRequired))) :
    onClient limits a b true q newId = (.accepted 3, q ++ [⟨newId, 200⟩]) ∧
    onClient limits a b false q newId = (.allocFailed, q) := by
  constructor
  · unfold onClient
    rw [if_neg hfloor, if_neg hlim, if_neg (by simp)]
  · unfold onClient
    rw [if_neg hfloor, if_neg hlim, if_pos rfl]

/-- Witness for C9: an accepted connection lands at the tail of the queue. -/
theorem C9_accept_fifo_witness :
    onClient ⟨0, 0, 0, 0⟩ 8192 2048 true [⟨1, 100⟩] 2 =
      (.accepted 3, [⟨1, 100⟩, ⟨2, 200⟩]) :=
  (C9_accept_fifo ⟨0, 0, 0, 0⟩ 8192 2048 [⟨1, 100⟩] 2 (by decide) (by decide)).1

/-- Claim C2: for every sequence of admissions, completions, drain triggers and
parser-layer state changes, the number of requests in the active state never
exceeds `maxConcurrentActive` (`nParallel`) when that limit is nonzero;
moreover each drain-loop pass that finds the active count at (or beyond) the
limit breaks without activating anything, leaving the queue unchanged. -/
theorem C2_concurrency_bound (limits : AsyncWebServerQueueLimits)
    (hpar : 0 < limits.nParallel) (st0 : ServerState)
    (h0 : countActive st0.queue ≤ limits.nParallel) (evs : List ServerEvent) :
    countActive (runServer limits st0 evs).queue ≤ limits.nParallel ∧
    ∀ (heap : Nat → Nat × Nat) (i : Nat) (q : RequestQueue),
      limits.nParallel ≤ countActive q → processQueueLoop limits heap i q = q := by
  constructor
  · exact countActive_run_le limits hpar evs st0 h0
  · intro heap i q hge
    rw [processQueueLoop_eq]
    by_cases hq : hasQueued q = true
    · rw [if_pos hq, if_pos ⟨hpar, hge⟩]
    · rw [if_neg hq]

/-- Witness for C2: with `nParallel = 1`, two admissions and a drain leave at
most one active request. -/
theorem C2_concurrency_bound_witness :
    countActive (runServer ⟨0, 0, 1, 0⟩ ⟨[], false⟩
      [.connect 100000 100000 true 1, .connect 100000 100000 true 2,
       .drain (fun _ => (100000, 100000))]).queue ≤ 1 :=
  (C2_concurrency_bound ⟨0, 0, 1, 0⟩ (by decide) ⟨[], false⟩ (by decide) _).1

/-- Claim C3: when no request is active, the drain loop activates the oldest
queued request regardless of the reported heap state (heap checks block
activation only once something is active); and with `maxConcurrentActive = 1`
and heap always reported insufficient, the pass activates exactly the first
queued request and stops with exactly one active request. -/
theorem C3_liveness_floor (limits : AsyncWebServerQueueLimits)
    (heap : Nat → Nat × Nat) (i : Nat) (q : RequestQueue)
    (hact : countActive q = 0) (hq : hasQueued q = true) :
    processQueueLoop limits heap i q = processQueueLoop limits heap (i + 1) (activateFirst q) ∧
    (limits.nParallel = 1 → (∀ j, (heap j).1 ≤ limits.requestHeapRequired) →
      processQueueLoop limits heap i q = activateFirst q ∧
      countActive (activateFirst q) = 1) := by
  have g1 : ¬(0 < limits.nParallel ∧ limits.nParallel ≤ countActive q) := by
    rw [hact]; omega
  have g2 : ¬(0 < countActive q ∧
      (heap_ok limits (heap i).1 = false ∨ alloc_ok (heap i).2 = false)) := by
    intro hc
    exact absurd hc.1 (by omega)
  have hstep : processQueueLoop limits heap i q =
      processQueueLoop limits heap (i + 1) (activateFirst q) := by
    rw [processQueueLoop_eq, if_pos hq, if_neg g1, if_neg g2]
  have hcnt : countActive (activateFirst q) = 1 := by
    rw [countActive_activateFirst q hq, hact]
  refine ⟨hstep, fun hp _ => ⟨?_, hcnt⟩⟩
  rw [hstep, processQueueLoop_eq]
  by_cases hq2 : hasQueued (activateFirst q) = true
  · rw [if_pos hq2, if_pos ⟨by omega, by rw [hcnt]; omega⟩]
  · rw [if_neg hq2]

/-- Witness for C3: two queued requests, `nParallel = 1`, heap always reported
as zero — the pass still activates the first request, and only that one. -/
theorem C3_liveness_floor_witness :
    processQueueLoop ⟨0, 0, 1, 0⟩ (fun _ => (0, 0)) 0 [⟨1, 200⟩, ⟨2, 200⟩] =
      activateFirst [⟨1, 200⟩, ⟨2, 200⟩] ∧
    countActive (activateFirst [⟨1, 200⟩, ⟨2, 200⟩]) = 1 :=
  (C3_liveness_floor ⟨0, 0, 1, 0⟩ (fun _ => (0, 0)) 0 [⟨1, 200⟩, ⟨2, 200⟩]
    (by decide) (by decide)).2 rfl (fun _ => Nat.le_refl 0)

/-- Claim C4: the drain pass is single-flight — a call finding `_queueActive`
already set returns immediately with the state untouched; a running pass, on
exit, clears the flag and leaves no request in the deferred state (201): every
request the loop left at 201 reappears as the same request re-set to queued
(200). -/
theorem C4_single_flight (limits : AsyncWebServerQueueLimits)
    (heap : Nat → Nat × Nat) (st : ServerState) :
    (st.queueActive = true → processQueue limits heap st = st) ∧
    (st.queueActive = false →
      (processQueue limits heap st).queueActive = false ∧
      (∀ r ∈ (processQueue limits heap st).queue, r.parseState ≠ 201) ∧
      ∀ r ∈ processQueueLoop limits heap 0 st.queue, r.parseState = 201 →
        (⟨r.rid, 200⟩ : QReq) ∈ (processQueue limits heap st).queue) := by
  constructor
  · intro h
    simp [processQueue, h]
  · intro h
    have hpq : processQueue limits heap st =
        { queue := undefer (processQueueLoop limits heap 0 st.queue),
          queueActive := false } := by
      simp [processQueue, h]
    refine ⟨by rw [hpq], ?_, ?_⟩
    · intro r hr
      rw [hpq] at hr
      simp only [undefer, List.mem_map] at hr
      obtain ⟨x, _, hx⟩ := hr
      by_cases h201 : x.parseState == 201
      · rw [if_pos h201] at hx
        rw [← hx]
        simp
      · rw [if_neg h201] at hx
        rw [← hx]
        simpa using h201
    · intro r hr h201
      rw [hpq]
      simp only [undefer, List.mem_map]
      exact ⟨r, hr, by simp [h201]⟩

/-- Witness for C4: a call with the single-flight flag set is an exact no-op. -/
theorem C4_single_flight_witness :
    processQueue ⟨0, 0, 0, 0⟩ (fun _ => (0, 0)) ⟨[⟨1, 201⟩, ⟨2, 200⟩], true⟩ =
      ⟨[⟨1, 201⟩, ⟨2, 200⟩], true⟩ :=
  (C4_single_flight ⟨0, 0, 0, 0⟩ (fun _ => (0, 0)) ⟨[⟨1, 201⟩, ⟨2, 200⟩], true⟩).1 rfl

/-- Counterexample to claim C6 as stated: with every configured Queue-Limits
minimum equal to 0, a fresh largest-free-block reading of 2048 exceeds every
configured minimum, yet the drain loop still refuses to activate past an
active request — because `alloc_ok` compares against the platform constant
`ASYNCWEBSERVER_MINIMUM_ALLOC` (2048), not a configured minimum. -/
theorem C6_counterexample :
    processQueueLoop ⟨0, 0, 0, 0⟩ (fun _ => (1000000, 2048)) 0 [⟨0, 100⟩, ⟨1, 200⟩] =
      [⟨0, 100⟩, ⟨1, 200⟩] ∧
    (2048 : Nat) ≤ ASYNCWEBSERVER_MINIMUM_ALLOC ∧
    (0 : Nat) < 2048 ∧ (0 : Nat) < 1000000 := by decide

/-- Claim C6 (amended): on every iteration the drain loop re-queries the heap
figures fresh (iteration `i` uses exactly reading `i`, the next iteration
reading `i + 1`); `heapOk` compares the fresh free-bytes figure against the
configured `requestHeapRequired`, while `allocOk` compares the fresh
largest-free-block against the platform constant `ASYNCWEBSERVER_MINIMUM_ALLOC`
rather than a configured Queue Limit.  Stated for an unconstrained `nParallel`
with work already active: the pass stops at iteration `i` exactly when reading
`i` fails one of those two comparisons. -/
theorem C6_fresh_heap_per_iteration (limits : AsyncWebServerQueueLimits)
    (heap : Nat → Nat × Nat) (i : Nat) (q : RequestQueue)
    (hact : 0 < countActive q) (hq : hasQueued q = true) (hpar : limits.nParallel = 0) :
    (processQueueLoop limits heap i q = q ↔
      ((heap i).1 ≤ limits.requestHeapRequired ∨
        (heap i).2 ≤ ASYNCWEBSERVER_MINIMUM_ALLOC)) ∧
    (limits.requestHeapRequired < (heap i).1 → ASYNCWEBSERVER_MINIMUM_ALLOC < (heap i).2 →
      processQueueLoop limits heap i q = processQueueLoop limits heap (i + 1) (activateFirst q)) := by
  have g1 : ¬(0 < limits.nParallel ∧ limits.nParallel ≤ countActive q) := by
    rw [hpar]; omega
  have hstep : ¬((heap i).1 ≤ limits.requestHeapRequired ∨
      (heap i).2 ≤ ASYNCWEBSERVER_MINIMUM_ALLOC) →
      processQueueLoop limits heap i q = processQueueLoop limits heap (i + 1) (activateFirst q) := by
    intro hgood
    push_neg at hgood
    have g2 : ¬(0 < countActive q ∧
        (heap_ok limits (heap i).1 = false ∨ alloc_ok (heap i).2 = false)) := by
      intro hc
      rcases hc.2 with hbad | hbad
      · exact absurd ((heap_ok_eq_false_iff limits _).mp hbad) (by omega)
      · exact absurd ((alloc_ok_eq_false_iff _).mp hbad) (by omega)
    rw [processQueueLoop_eq, if_pos hq, if_neg g1, if_neg g2]
  constructor
  · constructor
    · intro heq
      by_contra hgood
      have h1 := hstep hgood
      have h2 := countQueued_go_le limits heap (countQueued (activateFirst q)) (i + 1)
        (activateFirst q)
      have h3 := countQueued_activateFirst q hq
      have hpos := (hasQueued_iff_countQueued_pos q).mp hq
      rw [heq] at h1
      have h4 : countQueued q =
          countQueued (processQueueLoop limits heap (i + 1) (activateFirst q)) :=
        congrArg countQueued h1
      unfold processQueueLoop at h4
      omega
    · intro hbad
      have hbad' : heap_ok limits (heap i).1 = false ∨ alloc_ok (heap i).2 = false := by
        rcases hbad with hb | hb
        · exact Or.inl ((heap_ok_eq_false_iff limits _).mpr hb)
        · exact Or.inr ((alloc_ok_eq_false_iff _).mpr hb)
      rw [processQueueLoop_eq, if_pos hq, if_neg g1, if_pos ⟨hact, hbad'⟩]
  · intro hg1 hg2
    exact hstep (by omega)

/-- Witness for the amended C6: one active and one queued request with a zero
heap reading — the pass breaks at its first iteration. -/
theorem C6_fresh_heap_per_iteration_witness :
    processQueueLoop ⟨0, 0, 0, 0⟩ (fun _ => (0, 0)) 0 [⟨0, 100⟩, ⟨1, 200⟩] =
      [⟨0, 100⟩, ⟨1, 200⟩] :=
  ((C6_fresh_heap_per_iteration ⟨0, 0, 0, 0⟩ (fun _ => (0, 0)) 0 [⟨0, 100⟩, ⟨1, 200⟩]
    (by decide) (by decide) rfl).1).mpr (Or.inl (Nat.le_refl 0))

/-- Claim C7: the rewrite pass applies every matching rule in registration
order, each applied rule overwriting the request's URL and merging its
parameters before the next rule is tested (the rule appended last sees the
request as mutated by all earlier rules); in particular rules
`A : /old → /mid` and `B : /mid → /new`, registered in that order, transform a
request for `/old` into final path `/new`. -/
theorem C7_rewrite_chain :
    (∀ (rws : List AsyncWebRewrite) (rrule : AsyncWebRewrite) (req : WebRequest),
      _rewriteRequest (rws ++ [rrule]) req =
        (if rrule.rmatch (_rewriteRequest rws req) then
          { _rewriteRequest rws req with
            url := rrule.toUrl,
            params := (_rewriteRequest rws req).params ++ rrule.params }
        else _rewriteRequest rws req)) ∧
    (_rewriteRequest [rewriteFromTo "/old" "/mid", rewriteFromTo "/mid" "/new"]
        ⟨"/old", [], []⟩).url = "/new" := by
  constructor
  · intro rws rrule req
    simp [_rewriteRequest, List.foldl_append]
  · decide

/-- Claim C8: handler dispatch binds the first handler in registration order
whose `filter` and `canHandle` both hold, and stops there; if none qualifies,
it marks the request with the "ANY" interesting-header interest and binds the
catch-all handler.  (`dispatchSpec` is the spec-side description; the equation
states the source dispatch realizes it for every handler list and request.) -/
theorem C8_handler_dispatch :
    ∀ (handlers : List AsyncWebHandler) (req : WebRequest),
      _attachHandler handlers req = dispatchSpec handlers req := by
  intro handlers req
  rw [_attachHandler, attachHandlerFrom_eq req handlers 0, dispatchSpec]

/-- Claim C10: `numClients` returns the total number of requests held in the
queue regardless of lifecycle state, `queueLength` counts only those with
parse state at least 200 — excluding the active ones (state 100) — and in
particular `queueLength` never exceeds `numClients`. -/
theorem C10_counters :
    ∀ q : RequestQueue,
      numClients q = q.length ∧
      queueLength q + countActive q ≤ numClients q ∧
      queueLength q ≤ numClients q := by
  intro q
  have hmain : queueLength q + countActive q ≤ numClients q := by
    induction q with
    | nil => simp [queueLength, countActive, numClients]
    | cons r rs ih =>
      simp only [queueLength, countActive, numClients, List.countP_cons,
        List.length_cons] at ih ⊢
      by_cases h2 : 200 ≤ r.parseState
      · have h2' : (decide (200 ≤ r.parseState)) = true := by simpa using h2
        have h100 : (r.parseState == 100) = false := by
          have : r.parseState ≠ 100 := by omega
          simpa using this
        rw [h2', h100]
        simp only [if_true, Bool.false_eq_true, if_false]
        omega
      · have h2' : (decide (200 ≤ r.parseState)) = false := by simpa using h2
        rw [h2']
        by_cases h100 : r.parseState == 100
        · rw [h100]
          simp only [if_true, Bool.false_eq_true, if_false]
          omega
        · have h100' : (r.parseState == 100) = false := by simpa using h100
          rw [h100']
          simp only [Bool.false_eq_true, if_false]
          omega
  exact ⟨rfl, hmain, by omega⟩
